import Mathlib

set_option allowUnsafeReducibility true
set_option maxRecDepth 100000
set_option maxHeartbeats 1000000

attribute [semireducible] Rat.add Rat.mul Rat.inv Rat.sub Rat.div Rat.blt

/-!
Shallow embedding of the text-locator repository (spencertipping/recognize-text).

Namespace `RT` embeds the ray-based detector (the second document of
src/recognize-text.js, the `recognize_text` function).  Namespace `SW` embeds the
compiled two-window sliding-window draft (first document of src/recognize-text.js)
and namespace `MD` the literate three-window variant (src/recognize-text.md).

JS numbers are modelled as exact rationals; the single `Math.sqrt` of the point
classifier is modelled over ℝ with `Real.sqrt`.  The JS coercions `>>> 0` and the
`<< 2` shift used for pixel offsets are modelled exactly (`toUint32` / `toInt32`).
A luminosity read of a byte outside the buffer is `undefined` in JS and poisons
the enclosing ray with NaN; such reads are modelled with `Option`.
-/

/-- Row-major RGBA8 pixel buffer (`width`, `height`, raw byte sequence), the
`image_data` argument of `recognize_text(image_data, options)`. -/
structure ImageData where
  width : ℕ
  height : ℕ
  data : List ℕ
deriving DecidableEq

/-- JS `z >>> 0` (ToUint32) applied to an integral value. -/
def toUint32 (z : ℤ) : ℕ := (z % 4294967296).toNat

/-- JS ToInt32 wrap, as performed by the `<< 2` shift in `y * w + x << 2`
(`(n << 2)` equals ToInt32 of `4 * n`). -/
def toInt32 (z : ℤ) : ℤ :=
  let m := z % 4294967296
  if m < 2147483648 then m else m - 4294967296

/-- Reads one byte of a buffer at an integral offset; `none` models the
`undefined` produced by an out-of-range typed-array read. -/
def byteAt (B : ImageData) (o : ℤ) : Option ℚ :=
  if 0 ≤ o ∧ o.toNat < B.data.length then some ((B.data.getD o.toNat 0 : ℕ) : ℚ) else none

namespace RT

/-- The `options` argument: absent fields are `none`.  Spacing and ray options
are modelled as naturals (the source's documented option values are integers);
bias and threshold options as rationals. -/
structure Options where
  horizontal_spacing : Option ℕ := none
  vertical_spacing : Option ℕ := none
  ray_interval : Option ℕ := none
  ray_steps : Option ℕ := none
  ray_aspect : Option ℕ := none
  interior_bias : Option ℚ := none
  left_edge_bias : Option ℚ := none
  right_edge_bias : Option ℚ := none
  minimum_interior : Option ℚ := none
  minimum_confidence : Option ℚ := none
deriving DecidableEq

/-- JS `options && options.x || default`: an absent `options` object, an absent
field, or the falsy value `0` all fall back to the default. -/
def resolveN (o : Option ℕ) (d : ℕ) : ℕ :=
  match o with
  | none => d
  | some v => if v = 0 then d else v

/-- Rational-valued variant of `resolveN` for the bias/threshold options. -/
def resolveQ (o : Option ℚ) (d : ℚ) : ℚ :=
  match o with
  | none => d
  | some v => if v = 0 then d else v

/-- The option values cached as locals at the top of `recognize_text`. -/
structure Settings where
  hs : ℕ
  vs : ℕ
  ri : ℕ
  rs : ℕ
  ra : ℕ
  ib : ℚ
  leb : ℚ
  reb : ℚ
  mi : ℚ
  mc : ℚ
deriving DecidableEq

/-- Option processing with the source's defaults (`horizontal_spacing 3`,
`vertical_spacing 3`, `ray_interval 1`, `ray_steps 6`, `ray_aspect 2`,
`interior_bias 1`, edge biases `0`, `minimum_interior 0.5`,
`minimum_confidence 0.1`). -/
def settings (o : Options) : Settings :=
  { hs := resolveN o.horizontal_spacing 3
    vs := resolveN o.vertical_spacing 3
    ri := resolveN o.ray_interval 1
    rs := resolveN o.ray_steps 6
    ra := resolveN o.ray_aspect 2
    ib := resolveQ o.interior_bias 1
    leb := resolveQ o.left_edge_bias 0
    reb := resolveQ o.right_edge_bias 0
    mi := resolveQ o.minimum_interior (1/2)
    mc := resolveQ o.minimum_confidence (1/10) }

/-- `ray_length_x = ray_steps * ray_interval * ray_aspect`. -/
def ray_length_x (s : Settings) : ℕ := s.rs * s.ri * s.ra

/-- `ray_length_y = ray_steps * ray_interval`. -/
def ray_length_y (s : Settings) : ℕ := s.rs * s.ri

/-- `r_bias = 0.2126 / 768.0`. -/
def r_bias : ℚ := (2126/10000) / 768

/-- `g_bias = 0.7152 / 768.0`. -/
def g_bias : ℚ := (7152/10000) / 768

/-- `b_bias = 0.0722 / 768.0`. -/
def b_bias : ℚ := (722/10000) / 768

/-- The ray-based detector's pixel offset `y * w + x << 2` (for already
`>>> 0`-coerced coordinates). -/
def pixel_offset (B : ImageData) (ux uy : ℕ) : ℤ :=
  toInt32 (4 * ((uy : ℤ) * B.width + ux))

/-- Combination `d[o] * r_bias + d[o + 1] * g_bias + d[o + 2] * b_bias` of the
three channel bytes; `none` (an `undefined` byte, hence a NaN product) poisons
the result. -/
def lum_bytes : Option ℚ → Option ℚ → Option ℚ → Option ℚ
  | some r, some g, some b => some (r * r_bias + g * g_bias + b * b_bias)
  | _, _, _ => none

/-- `luminosity(x, y)` of the ray-based detector: reads the three bytes at the
pixel offset and combines them with the bias weights. -/
def luminosity (B : ImageData) (ux uy : ℕ) : Option ℚ :=
  lum_bytes (byteAt B (pixel_offset B ux uy)) (byteAt B (pixel_offset B ux uy + 1))
    (byteAt B (pixel_offset B ux uy + 2))

/-- Coordinates of the loop `for (c = start; c < bound; c += step)` over an
integral bound (ascending, step ≥ 1 after option resolution). -/
def gridCoords (start : ℕ) (bound : ℤ) (step : ℕ) : List ℕ :=
  (List.range (max bound 0).toNat).filter
    (fun c => decide (start ≤ c ∧ (c - start) % step = 0))

/-- Grid column coordinates: `for (x = ray_length_y; x < w - ray_length_x; x += horizontal_spacing)`. -/
def xs (B : ImageData) (o : Options) : List ℕ :=
  gridCoords (ray_length_y (settings o)) ((B.width : ℤ) - ray_length_x (settings o)) (settings o).hs

/-- Grid row coordinates: `for (y = ray_length_y; y < h - ray_length_y; y += vertical_spacing)`. -/
def ys (B : ImageData) (o : Options) : List ℕ :=
  gridCoords (ray_length_y (settings o)) ((B.height : ℤ) - ray_length_y (settings o)) (settings o).vs

/-- The eight ray directions (N, NE, E, SE, S, SW, W, NW in image coordinates,
`y` growing downwards). -/
def ray_directions : List (ℤ × ℤ) :=
  [(0, 1), (1, 1), (1, 0), (1, -1), (0, -1), (-1, -1), (-1, 0), (-1, 1)]

/-- Directions after `ray_directions[i][0] *= ray_aspect`. -/
def scaled_directions (s : Settings) : List (ℤ × ℤ) :=
  ray_directions.map (fun p => (p.1 * (s.ra : ℤ), p.2))

/-- Nominal coordinate of ray sample `d` of direction `j` from point `(x, y)`:
`(x + d * dx, y + d * dy)` with `dx = ray_directions[j][0] * ray_interval`,
before the `>>> 0` coercion. -/
def sample_coord (s : Settings) (x y j d : ℕ) : ℤ × ℤ :=
  let dir := (scaled_directions s).getD j (0, 0)
  ((x : ℤ) + (d : ℤ) * (dir.1 * (s.ri : ℤ)), (y : ℤ) + (d : ℤ) * (dir.2 * (s.ri : ℤ)))

/-- The `ray_steps` luminosity samples of one ray,
`luminosity(x + d * dx >>> 0, y + d * dy >>> 0)`. -/
def ray_samples (B : ImageData) (s : Settings) (x y j : ℕ) : List (Option ℚ) :=
  (List.range s.rs).map (fun d =>
    let c := sample_coord s x y j d
    luminosity B (toUint32 c.1) (toUint32 c.2))

/-- A recorded variant segment (`{value, position, length}`). -/
structure Seg where
  value : ℚ
  position : ℕ
  length : ℕ
deriving DecidableEq

/-- One iteration of the segment-collection loop, on state
(subtotal, subdistance, recorded segments) and the enumerated sample `(d, ray[d])`:
when `d === 0` or the sign of `subtotal - average` matches the sign of
`ray[d] - average`, the sample is folded into the running segment; otherwise the
running segment is recorded (only if its magnitude exceeds the 0.025 noise
floor) and a new one starts at the flipping sample. -/
def seg_step (average : ℚ) (st : ℚ × ℕ × List Seg) (p : ℕ × ℚ) : ℚ × ℕ × List Seg :=
  if p.1 = 0 ∨ (decide (0 ≤ st.1 - average) = decide (0 ≤ p.2 - average)) then
    (st.1 + (p.2 - average), st.2.1 + 1, st.2.2)
  else
    (p.2 - average, 1,
      st.2.2 ++ if 1/40 < |st.1| then [⟨|st.1|, p.1, st.2.1⟩] else [])

/-- Segment collection over one ray's samples (the final in-progress segment is
never recorded, exactly as in the source loop). -/
def segs_of (average : ℚ) (vals : List ℚ) : List Seg :=
  (vals.enum.foldl (seg_step average) (0, 0, [])).2.2

/-- Sequences a list of optional samples; `none` when any sample is missing. -/
def seqOpt : List (Option ℚ) → Option (List ℚ)
  | [] => some []
  | none :: _ => none
  | some v :: t => (seqOpt t).map (fun l => v :: l)

/-- The segment list of ray `j` of point `(x, y)`.  When some sample of the ray
reads outside the buffer, the JS total and average are NaN, every comparison
against the average is false, the fold-in branch is always taken, and no segment
is ever recorded; such rays therefore have an empty segment list. -/
def ray_segments (B : ImageData) (o : Options) (x y j : ℕ) : List Seg :=
  match seqOpt (ray_samples B (settings o) x y j) with
  | none => []
  | some vals => segs_of (vals.sum / ((settings o).rs : ℚ)) vals

/-- A ray summary `{magnitude, distance}`. -/
structure Summary where
  magnitude : ℚ
  distance : ℚ
deriving DecidableEq

/-- Ray summary: `magnitude` is the sum of `value / length` over the segments,
`distance` the weighted mean position.  `distance / magnitude || 0` is modelled
by total division (`q / 0 = 0` in ℚ, matching the `|| 0` fallback on NaN). -/
def summarize (segs : List Seg) : Summary :=
  let md := segs.foldl
    (fun (md : ℚ × ℚ) r =>
      let moment := r.value / (r.length : ℚ)
      (md.1 + moment, md.2 + moment * (r.position : ℚ)))
    (0, 0)
  ⟨md.1, md.2 / md.1⟩

/-- `p.ray_summaries[j]`. -/
def ray_summary (B : ImageData) (o : Options) (x y j : ℕ) : Summary :=
  summarize (ray_segments B o x y j)

/-- `p.ray_summaries[j].magnitude`. -/
def magnitude (B : ImageData) (o : Options) (x y j : ℕ) : ℚ :=
  (ray_summary B o x y j).magnitude

/-- The six directional accumulators `h_bias, h_total, v_bias, v_total, d_bias,
d_total`. -/
structure Biases where
  hb : ℚ
  ht : ℚ
  vb : ℚ
  vt : ℚ
  db : ℚ
  dt : ℚ
deriving DecidableEq

/-- One iteration of the accumulator loop over `(j, ray_directions[j])`:
horizontal rays (second component 0) feed `h_bias`/`h_total`, vertical rays
(first component 0) feed `v_bias`/`v_total`, and diagonal rays with a nonzero
dot product against (1, 1) feed `d_bias`/`d_total`. -/
def bias_step (m : ℕ → ℚ) (acc : Biases) (p : ℕ × (ℤ × ℤ)) : Biases :=
  let j := p.1
  let dir := p.2
  let a1 :=
    if dir.2 = 0 then
      { acc with hb := acc.hb + m j * (dir.1 : ℚ), ht := acc.ht + m j * |(dir.1 : ℚ)| }
    else acc
  let a2 :=
    if dir.1 = 0 then
      { a1 with vb := a1.vb + m j * (dir.2 : ℚ), vt := a1.vt + m j * |(dir.2 : ℚ)| }
    else a1
  if dir.1 ≠ 0 ∧ dir.2 ≠ 0 ∧ dir.1 + dir.2 ≠ 0 then
    { a2 with db := a2.db + m j * ((dir.1 + dir.2 : ℤ) : ℚ),
              dt := a2.dt + m j * |((dir.1 + dir.2 : ℤ) : ℚ)| }
  else a2

/-- The accumulators after the loop over the eight (scaled) ray directions. -/
def biases (s : Settings) (m : ℕ → ℚ) : Biases :=
  (scaled_directions s).enum.foldl (bias_step m) ⟨0, 0, 0, 0, 0, 0⟩

/-- The seven raw classification scores of a point. -/
structure RawCls where
  interior : ℚ
  left_edge : ℚ
  right_edge : ℚ
  top_edge : ℚ
  bottom_edge : ℚ
  nw_corner : ℚ
  se_corner : ℚ
deriving DecidableEq

/-- The raw classification values (`interior_value` … `se_corner_value`).
JS `h_bias < 0 && -h_bias` evaluates to `false` when the guard fails, and
`false` behaves as 0 in all later arithmetic, so the guarded values are
modelled as 0. -/
def raw_classification (B : ImageData) (o : Options) (x y : ℕ) : RawCls :=
  let s := settings o
  let b := biases s (fun j => magnitude B o x y j)
  let nvb := b.vb + b.vt * (1/2)
  let ndb := b.db + b.dt * (1/2)
  { interior := s.ib * b.ht + b.dt + b.vt
    left_edge := if b.hb < 0 then -b.hb else 0
    right_edge := if 0 < b.hb then b.hb else 0
    top_edge := nvb
    bottom_edge := b.vt - nvb
    nw_corner := ndb
    se_corner := b.dt - ndb }

/-- The radicand of `classification_distance`: the sum of squares of the seven
raw scores. -/
def sq_sum (c : RawCls) : ℚ :=
  c.interior * c.interior + c.left_edge * c.left_edge + c.right_edge * c.right_edge +
    c.top_edge * c.top_edge + c.bottom_edge * c.bottom_edge +
    c.nw_corner * c.nw_corner + c.se_corner * c.se_corner

/-- `classification_distance = Math.max(1, Math.sqrt(...))`, idealized over ℝ. -/
noncomputable def classification_distance (B : ImageData) (o : Options) (x y : ℕ) : ℝ :=
  max 1 (Real.sqrt ((sq_sum (raw_classification B o x y) : ℚ) : ℝ))

/-- A classified sample point as consumed by the rectangle grower: coordinates,
the seven normalized classification components, and the sum
`p.ray_summaries[0].magnitude + … [2] + … [4] + … [6]` that the source stores as
the emitted rectangle's confidence. -/
structure Pt (K : Type) where
  x : ℕ
  y : ℕ
  interior : K
  left_edge : K
  right_edge : K
  top_edge : K
  bottom_edge : K
  nw_corner : K
  se_corner : K
  axis_magnitude : K

/-- The point after classification: every raw score divided by
`classification_distance`. -/
noncomputable def classified_point (B : ImageData) (o : Options) (x y : ℕ) : Pt ℝ :=
  let raw := raw_classification B o x y
  let cd := classification_distance B o x y
  { x := x
    y := y
    interior := (raw.interior : ℝ) / cd
    left_edge := (raw.left_edge : ℝ) / cd
    right_edge := (raw.right_edge : ℝ) / cd
    top_edge := (raw.top_edge : ℝ) / cd
    bottom_edge := (raw.bottom_edge : ℝ) / cd
    nw_corner := (raw.nw_corner : ℝ) / cd
    se_corner := (raw.se_corner : ℝ) / cd
    axis_magnitude :=
      ((magnitude B o x y 0 + magnitude B o x y 2 + magnitude B o x y 4 +
        magnitude B o x y 6 : ℚ) : ℝ) }

/-- An output rectangle `{x, y, w, h, confidence}`. -/
structure Rectangle (K : Type) where
  x : ℕ
  y : ℕ
  w : ℕ
  h : ℕ
  confidence : K
deriving DecidableEq

/-- The fully classified, fully linked grid: lattice sizes, lattice-index to
pixel-coordinate maps, and the classified point of each lattice cell.  Neighbor
links of the doubly linked grid are index arithmetic: `up`/`left` decrement and
`down`/`right` increment one lattice index, existing exactly when they stay in
range. -/
structure Grid (K : Type) where
  nx : ℕ
  ny : ℕ
  xcoord : ℕ → ℕ
  ycoord : ℕ → ℕ
  cell : ℕ → ℕ → Pt K

/-- Insertion of one element into a sorted prefix, keeping it after every
element it does not strictly beat (the stable-sort insertion step). -/
def insert_stable {α : Type} (le : α → α → Bool) (x : α) : List α → List α
  | [] => [x]
  | y :: ys => if le y x then y :: insert_stable le x ys else x :: y :: ys

/-- Stable sort: the semantics of `Array.prototype.sort` with the comparator
`(x, y) => y.interior - x.interior` (descending, ties in original order). -/
def sort_stable {α : Type} (le : α → α → Bool) (l : List α) : List α :=
  l.foldl (fun acc x => insert_stable le x acc) []

/-- Lattice indices of all points, column-major exactly as the construction loop
pushes them (`x` outer, `y` inner). -/
def point_indices (nx ny : ℕ) : List (ℕ × ℕ) :=
  (List.range nx).flatMap (fun i => (List.range ny).map (fun j => (i, j)))

section Grower

variable {K : Type} [LinearOrderedField K]

/-- The upward growth walk.  The argument is the lattice row of the current
`top_edge` (which starts at `p.up`); the walk moves up while an upward neighbor
exists, the moment `interior - top_edge` of the current point is positive, and
taking it improves the running average moment rate. -/
def walk_up (g : Grid K) (i : ℕ) : ℕ → K → ℕ → ℕ
  | 0, _, _ => 0
  | j + 1, total, dist =>
    let q := g.cell i (j + 1)
    let moment := q.interior - q.top_edge
    if 0 < moment ∧ (dist = 0 ∨ total / (dist : K) < total + moment / ((dist : K) + 1)) then
      walk_up g i j (total + moment) (dist + 1)
    else j + 1

/-- The downward growth walk; the first argument is the number of rows below the
current `bottom_edge` (so `0` means `bottom_edge.down` is absent). -/
def walk_down (g : Grid K) (i : ℕ) : ℕ → ℕ → K → ℕ → ℕ
  | 0, j, _, _ => j
  | gap + 1, j, total, dist =>
    let q := g.cell i j
    let moment := q.interior - q.bottom_edge
    if 0 < moment ∧ (dist = 0 ∨ total / (dist : K) < total + moment / ((dist : K) + 1)) then
      walk_down g i (gap) (j + 1) (total + moment) (dist + 1)
    else j

/-- The leftward walk, moving `left_edge` (in the seed row `jrow`) and the
`nw_corner` pointer (in the top row `jtop`) in lock-step while
`left_edge.interior + nw_corner.top_edge + left_edge_bias >
left_edge.left_edge + nw_corner.nw_corner` and a left neighbor exists. -/
def walk_left (g : Grid K) (jrow jtop : ℕ) (leb : K) : ℕ → ℕ
  | 0 => 0
  | i + 1 =>
    let e := g.cell (i + 1) jrow
    let c := g.cell (i + 1) jtop
    if e.left_edge + c.nw_corner < e.interior + c.top_edge + leb then
      walk_left g jrow jtop leb i
    else i + 1

/-- The rightward walk (lock-step with the `se_corner` pointer in the bottom row
`jbot`); the first argument is the number of columns to the right of the current
`right_edge`. -/
def walk_right (g : Grid K) (jrow jbot : ℕ) (reb : K) : ℕ → ℕ → ℕ
  | 0, i => i
  | gap + 1, i =>
    let e := g.cell i jrow
    let c := g.cell i jbot
    if e.right_edge + c.se_corner < e.interior + c.bottom_edge + reb then
      walk_right g jrow jbot reb gap (i + 1)
    else i

/-- Sum of `f` over the lattice indices `lo ≤ t < hi`. -/
def range_sum (lo hi : ℕ) (f : ℕ → K) : K :=
  ((List.range (hi - lo)).map (fun k => f (lo + k))).sum

/-- Growth from an accepted seed at lattice index `(i, j)`: the four walks fix
the corner indices, the classification scores are integrated over the interior
cells, the four borders and the two corners, and the integral is divided by
`area * (se_corner.y - nw_corner.y)`.  Returns this computed confidence together
with the pushed rectangle — whose `confidence` field the source fills with the
seed's four axis-ray magnitudes, not with the computed value. -/
def grow (g : Grid K) (leb reb : K) (hs vs : ℕ) (i j : ℕ) : K × Rectangle K :=
  let jt := walk_up g i (j - 1) 0 0
  let jb := walk_down g i (g.ny - 1 - (j + 1)) (j + 1) 0 0
  let il := walk_left g j jt leb i
  let ir := walk_right g j jb reb (g.nx - 1 - i) i
  let nw := g.cell il jt
  let se := g.cell ir jb
  let area : K := (((g.xcoord ir : ℤ) - (g.xcoord il : ℤ) : ℤ) : K) *
    (((g.ycoord jb : ℤ) - (g.ycoord jt : ℤ) : ℤ) : K)
  let inner := range_sum (il + 1) ir (fun ii =>
    range_sum (jt + 1) jb (fun jj => (g.cell ii jj).interior))
  let tb := range_sum (il + 1) ir (fun k =>
    (g.cell k jt).top_edge + (g.cell (il + ir - k) jb).bottom_edge)
  let lr := range_sum (jt + 1) jb (fun k =>
    (g.cell il k).left_edge + (g.cell ir (jt + jb - k)).right_edge)
  let conf := (inner + tb + lr + nw.nw_corner + se.se_corner) /
    (area * (((g.ycoord jb : ℤ) - (g.ycoord jt : ℤ) : ℤ) : K))
  (conf, ⟨g.xcoord i, g.ycoord j, hs, vs, (g.cell i j).axis_magnitude⟩)

/-- The seed loop over the interior-sorted point list: it stops at the first
point whose `interior` is not above `minimum_interior`, skips points lacking one
of the four neighbor links, and otherwise grows a rectangle, tracking
`maximum_confidence = Math.max(confidence, maximum_confidence)` over the
computed confidences while pushing the rectangles in encounter order. -/
def grow_loop (g : Grid K) (mi leb reb : K) (hs vs : ℕ) :
    List (ℕ × ℕ) → K → List (Rectangle K) → K × List (Rectangle K)
  | [], maxc, rects => (maxc, rects)
  | p :: rest, maxc, rects =>
    if mi < (g.cell p.1 p.2).interior then
      if 0 < p.1 ∧ p.1 + 1 < g.nx ∧ 0 < p.2 ∧ p.2 + 1 < g.ny then
        let cr := grow g leb reb hs vs p.1 p.2
        grow_loop g mi leb reb hs vs rest (max cr.1 maxc) (rects ++ [cr.2])
      else grow_loop g mi leb reb hs vs rest maxc rects
    else (maxc, rects)

/-- The final loop: every rectangle's confidence is divided by
`maximum_confidence`, and exactly the rectangles whose rescaled confidence
reaches `minimum_confidence` survive, in order. -/
def survivor_loop (mc maxc : K) : List (Rectangle K) → List (Rectangle K)
  | [] => []
  | r :: rest =>
    let r2 : Rectangle K := { r with confidence := r.confidence / maxc }
    (if mc ≤ r2.confidence then [r2] else []) ++ survivor_loop mc maxc rest

end Grower

/-- The classified grid of a detection call. -/
noncomputable def grid_of (B : ImageData) (o : Options) : Grid ℝ :=
  { nx := (xs B o).length
    ny := (ys B o).length
    xcoord := fun i => (xs B o).getD i 0
    ycoord := fun j => (ys B o).getD j 0
    cell := fun i j => classified_point B o ((xs B o).getD i 0) ((ys B o).getD j 0) }

/-- `points.slice().sort(function (x, y) { return y.interior - x.interior })`. -/
noncomputable def sorted_by_interior (B : ImageData) (o : Options) : List (ℕ × ℕ) :=
  sort_stable
    (fun a b => decide (((grid_of B o).cell b.1 b.2).interior ≤ ((grid_of B o).cell a.1 a.2).interior))
    (point_indices (xs B o).length (ys B o).length)

/-- The `rectangles` array together with `maximum_confidence` after the seed loop. -/
noncomputable def grown (B : ImageData) (o : Options) : ℝ × List (Rectangle ℝ) :=
  grow_loop (grid_of B o) ((settings o).mi : ℝ) ((settings o).leb : ℝ) ((settings o).reb : ℝ)
    (settings o).hs (settings o).vs (sorted_by_interior B o) 0 []

/-- The candidate rectangles in generation order. -/
noncomputable def rectangles (B : ImageData) (o : Options) : List (Rectangle ℝ) :=
  (grown B o).2

/-- The maximum computed confidence over all candidates (0 when there are none). -/
noncomputable def maximum_confidence (B : ImageData) (o : Options) : ℝ :=
  (grown B o).1

/-- `recognize_text(image_data, options)`: the surviving rectangle list. -/
noncomputable def recognize_text (B : ImageData) (o : Options) : List (Rectangle ℝ) :=
  survivor_loop ((settings o).mc : ℝ) (maximum_confidence B o) (rectangles B o)

/-- Sanity constraints on a supplied configuration, from the documented option
table: positive interior bias and positive acceptance/confidence floors (the
defaults are 1, 0.5 and 0.1). -/
def ValidOptions (o : Options) : Prop :=
  0 < (settings o).ib ∧ 0 < (settings o).mi ∧ 0 < (settings o).mc

instance (o : Options) : Decidable (ValidOptions o) :=
  inferInstanceAs (Decidable (0 < (settings o).ib ∧ 0 < (settings o).mi ∧ 0 < (settings o).mc))

/-- Rational evaluation rail: the classified point with the raw (undivided)
scores.  Whenever every raw classification vector of a buffer has norm at most
1, `classification_distance` is identically 1 and the real pipeline computes
exactly these rational values (theorem `recognize_text_eq_rat`). -/
def classified_point_rat (B : ImageData) (o : Options) (x y : ℕ) : Pt ℚ :=
  let raw := raw_classification B o x y
  { x := x
    y := y
    interior := raw.interior
    left_edge := raw.left_edge
    right_edge := raw.right_edge
    top_edge := raw.top_edge
    bottom_edge := raw.bottom_edge
    nw_corner := raw.nw_corner
    se_corner := raw.se_corner
    axis_magnitude :=
      magnitude B o x y 0 + magnitude B o x y 2 + magnitude B o x y 4 + magnitude B o x y 6 }

/-- Rational evaluation rail for the grid. -/
def grid_rat (B : ImageData) (o : Options) : Grid ℚ :=
  { nx := (xs B o).length
    ny := (ys B o).length
    xcoord := fun i => (xs B o).getD i 0
    ycoord := fun j => (ys B o).getD j 0
    cell := fun i j => classified_point_rat B o ((xs B o).getD i 0) ((ys B o).getD j 0) }

/-- Rational evaluation rail for the sorted point list. -/
def sorted_by_interior_rat (B : ImageData) (o : Options) : List (ℕ × ℕ) :=
  sort_stable
    (fun a b => decide (((grid_rat B o).cell b.1 b.2).interior ≤ ((grid_rat B o).cell a.1 a.2).interior))
    (point_indices (xs B o).length (ys B o).length)

/-- Rational evaluation rail for the seed loop. -/
def grown_rat (B : ImageData) (o : Options) : ℚ × List (Rectangle ℚ) :=
  grow_loop (grid_rat B o) (settings o).mi (settings o).leb (settings o).reb
    (settings o).hs (settings o).vs (sorted_by_interior_rat B o) 0 []

/-- Rational evaluation rail for the whole call. -/
def recognize_text_rat (B : ImageData) (o : Options) : List (Rectangle ℚ) :=
  survivor_loop (settings o).mc (grown_rat B o).1 (grown_rat B o).2

/-- Real image of a rational classified point. -/
def castPt (p : Pt ℚ) : Pt ℝ :=
  { x := p.x
    y := p.y
    interior := (p.interior : ℝ)
    left_edge := (p.left_edge : ℝ)
    right_edge := (p.right_edge : ℝ)
    top_edge := (p.top_edge : ℝ)
    bottom_edge := (p.bottom_edge : ℝ)
    nw_corner := (p.nw_corner : ℝ)
    se_corner := (p.se_corner : ℝ)
    axis_magnitude := (p.axis_magnitude : ℝ) }

/-- Real image of a rational grid. -/
def castGrid (g : Grid ℚ) : Grid ℝ :=
  { nx := g.nx
    ny := g.ny
    xcoord := g.xcoord
    ycoord := g.ycoord
    cell := fun i j => castPt (g.cell i j) }

/-- Real image of a rational rectangle. -/
def castRect (r : Rectangle ℚ) : Rectangle ℝ :=
  { x := r.x, y := r.y, w := r.w, h := r.h, confidence := (r.confidence : ℝ) }

end RT

namespace SW

/-- `pixel_offset(x, y) = y * h + x << 2` of the compiled two-window draft (note
the `h`: the draft multiplies by the image height). -/
def pixel_offset (B : ImageData) (x y : ℕ) : ℤ :=
  toInt32 (4 * ((y : ℤ) * B.height + x))

/-- Byte read with the in-range value (the draft's theorems only ever read
inside the buffer; an out-of-range read would be NaN). -/
def byteD (B : ImageData) (o : ℤ) : ℚ :=
  if 0 ≤ o ∧ o.toNat < B.data.length then ((B.data.getD o.toNat 0 : ℕ) : ℚ) else 0

/-- `pixel_vector(x, y) = [d[o], d[o + 1], d[o + 2]]`. -/
def pixel_vector (B : ImageData) (x y : ℕ) : List ℚ :=
  let o := pixel_offset B x y
  [byteD B o, byteD B (o + 1), byteD B (o + 2)]

/-- `luminosity_vector = [0.2126, 0.7152, 0.0722]`. -/
def luminosity_vector : List ℚ := [2126/10000, 7152/10000, 722/10000]

/-- The compiled draft's `dot`: the fold body is `x0 = (x * v2[xi])`, so each
iteration overwrites the accumulator instead of adding to it and the result is
the product of the last components only. -/
def dot (v1 v2 : List ℚ) : ℚ :=
  (List.range v1.length).foldl (fun _x0 xi => v1.getD xi 0 * v2.getD xi 0) 0

/-- `luminosity(v) = dot(v, luminosity_vector)`. -/
def luminosity (v : List ℚ) : ℚ := dot v luminosity_vector

end SW

namespace MD

/-- `zero = [0, 0, 0]`. -/
def zero : List ℚ := [0, 0, 0]

/-- Componentwise combination over the length of the first vector, the shape of
the literate source's `v1 *[…v2[xi]] -seq` maps. -/
def map2 (f : ℚ → ℚ → ℚ) (v1 v2 : List ℚ) : List ℚ :=
  (List.range v1.length).map (fun i => f (v1.getD i 0) (v2.getD i 0))

/-- `plus(v1, v2)`. -/
def plus (v1 v2 : List ℚ) : List ℚ := map2 (fun a b => a + b) v1 v2

/-- `minus(v1, v2)`. -/
def minus (v1 v2 : List ℚ) : List ℚ := map2 (fun a b => a - b) v1 v2

/-- `times(v, f)`. -/
def times (v : List ℚ) (f : ℚ) : List ℚ := v.map (fun a => a * f)

/-- `c_times(v1, v2)`. -/
def c_times (v1 v2 : List ℚ) : List ℚ := map2 (fun a b => a * b) v1 v2

/-- The literate source's `dot(v1, v2) = v1 /[0][x0 + x * v2[xi]] -seq`, a true
accumulating fold. -/
def dot (v1 v2 : List ℚ) : ℚ :=
  (List.range v1.length).foldl (fun x0 xi => x0 + v1.getD xi 0 * v2.getD xi 0) 0

/-- `luminosity_vector = [0.2126, 0.7152, 0.0722]`. -/
def luminosity_vector : List ℚ := [2126/10000, 7152/10000, 722/10000]

/-- `luminosity(v)`: the dot product of `v` with `luminosity_vector`. -/
def luminosity (v : List ℚ) : ℚ := dot v luminosity_vector

/-- `squared(x) = x * x`. -/
def squared (x : ℚ) : ℚ := x * x

/-- A window's color-vector aggregates.  The positional fields and the pixel
list are omitted: `likelihood` consumes only the average and variance vectors. -/
structure Window where
  average : List ℚ
  variance : List ℚ
deriving DecidableEq

/-- `d_window(w1, w2) = {d_average: w1.average - w2.average, d_variance: w1.variance - w2.variance}`. -/
structure DWindow where
  d_average : List ℚ
  d_variance : List ℚ
deriving DecidableEq

/-- The delta-window constructor. -/
def d_window (w1 w2 : Window) : DWindow :=
  ⟨minus w1.average w2.average, minus w1.variance w2.variance⟩

/-- `variance_denominator = 1 + |luminosity(d1.d_variance) * luminosity(d2.d_variance)|`. -/
def variance_denominator (d1 d2 : DWindow) : ℚ :=
  1 + |luminosity d1.d_variance * luminosity d2.d_variance|

/-- `variance_fraction = |dot(d1.d_variance, d2.d_variance)| / variance_denominator`. -/
def variance_fraction (d1 d2 : DWindow) : ℚ :=
  |dot d1.d_variance d2.d_variance| / variance_denominator d1 d2

/-- `average_denominator = 1 + squared(dot(d1.d_average, d2.d_average))`. -/
def average_denominator (d1 d2 : DWindow) : ℚ :=
  1 + squared (dot d1.d_average d2.d_average)

/-- `average_fraction = |luminosity(d1.d_average) - luminosity(d2.d_average)| / average_denominator`. -/
def average_fraction (d1 d2 : DWindow) : ℚ :=
  |luminosity d1.d_average - luminosity d2.d_average| / average_denominator d1 d2

/-- `likelihood(w1, w2, w3) = variance_fraction * average_fraction` with
`d1 = d_window(w2, w1)` and `d2 = d_window(w3, w2)`. -/
def likelihood (w1 w2 w3 : Window) : ℚ :=
  let d1 := d_window w2 w1
  let d2 := d_window w3 w2
  variance_fraction d1 d2 * average_fraction d1 d2

/-- The spec's likelihood formula, written directly from its words: with
`d1 = w2 - w1` and `d2 = w3 - w2` taken on both the average and variance
vectors, the score is
`(|dot(d1.variance, d2.variance)| / (1 + |L(d1.variance) * L(d2.variance)|)) *
(|L(d1.average) - L(d2.average)| / (1 + dot(d1.average, d2.average)^2))`. -/
def spec_score (w1 w2 w3 : Window) : ℚ :=
  let dv1 := minus w2.variance w1.variance
  let dv2 := minus w3.variance w2.variance
  let da1 := minus w2.average w1.average
  let da2 := minus w3.average w2.average
  (|dot dv1 dv2| / (1 + |luminosity dv1 * luminosity dv2|)) *
    (|luminosity da1 - luminosity da2| / (1 + (dot da1 da2) ^ 2))

end MD

/-- A gray RGBA pixel (128, 128, 128, 255). -/
def grayPixel : List ℕ := [128, 128, 128, 255]

/-- A black RGBA pixel (0, 0, 0, 255). -/
def blackPixel : List ℕ := [0, 0, 0, 255]

/-- An 11×11 mid-gray buffer with two black pixels at (4, 5) and (6, 5),
bracketing the future seed point (5, 5) horizontally. -/
def busyBuffer : ImageData :=
  ⟨11, 11, ((List.range 121).map (fun k => if k = 59 ∨ k = 61 then blackPixel else grayPixel)).flatten⟩

/-- Options used with `busyBuffer`: two-step symmetric rays and a lowered seed
floor (all values inside the documented option ranges). -/
def busyOptions : RT.Options :=
  { ray_steps := some 2, ray_aspect := some 1, minimum_interior := some (1/10) }

/-- A 5×8 mid-gray buffer with one black pixel at (2, 4), directly above the
grid point (2, 5). -/
def edgeBuffer : ImageData :=
  ⟨5, 8, ((List.range 40).map (fun k => if k = 22 then blackPixel else grayPixel)).flatten⟩

/-- Options used with `edgeBuffer`: two-step symmetric rays. -/
def edgeOptions : RT.Options := { ray_steps := some 2, ray_aspect := some 1 }

/-- A 19×13 uniform mid-gray buffer (the smallest uniform image whose default
grid is nonempty). -/
def uniformBuffer : ImageData := ⟨19, 13, (List.replicate 247 grayPixel).flatten⟩

/-- A malformed input: positive dimensions with an empty byte sequence
(length 0 ≠ 19 * 13 * 4). -/
def emptyDataBuffer : ImageData := ⟨19, 13, []⟩

/-- The empty options object (every option at its default). -/
def defaultOptions : RT.Options := {}

/-- A 2×2 all-white buffer. -/
def whiteBuffer : ImageData := ⟨2, 2, (List.replicate 4 [255, 255, 255, 255]).flatten⟩

namespace RT

theorem resolveN_pos (o : Option ℕ) (d : ℕ) (hd : 0 < d) : 0 < resolveN o d := by
  cases o with
  | none => exact hd
  | some v =>
    by_cases h : v = 0
    · simpa [resolveN, h] using hd
    · simpa [resolveN, h] using Nat.pos_of_ne_zero h

theorem settings_rs_pos (o : Options) : 0 < (settings o).rs :=
  resolveN_pos o.ray_steps 6 (by norm_num)

theorem summarize_nil : summarize [] = ⟨0, 0⟩ := by
  simp [summarize]

theorem seg_fold_const (c : ℚ) :
    ∀ (l : List (ℕ × ℚ)) (st : ℚ × ℕ × List Seg), st.1 = 0 → (∀ p ∈ l, p.2 = c) →
      (l.foldl (seg_step c) st).1 = 0 ∧ (l.foldl (seg_step c) st).2.2 = st.2.2 := by
  intro l
  induction l with
  | nil => intro st h0 _; exact ⟨h0, rfl⟩
  | cons p t ih =>
    intro st h0 hall
    have hp : p.2 = c := hall p (List.mem_cons_self p t)
    have hrest : ∀ q ∈ t, q.2 = c := fun q hq => hall q (List.mem_cons_of_mem p hq)
    have hstep : (seg_step c st p).1 = 0 ∧ (seg_step c st p).2.2 = st.2.2 := by
      unfold seg_step
      simp only [h0, hp]
      split <;> simp
    rw [List.foldl_cons]
    have := ih (seg_step c st p) hstep.1 hrest
    exact ⟨this.1, this.2.trans hstep.2⟩

theorem segs_of_const (c : ℚ) (vals : List ℚ) (hall : ∀ v ∈ vals, v = c) :
    segs_of c vals = [] := by
  unfold segs_of
  have hall2 : ∀ p ∈ vals.enum, p.2 = c := by
    intro p hp
    apply hall
    have : p.2 ∈ vals.enum.map Prod.snd := List.mem_map_of_mem Prod.snd hp
    simpa [List.enum_map_snd] using this
  exact (seg_fold_const c vals.enum (0, 0, []) rfl hall2).2

theorem seg_fold_good (average : ℚ) :
    ∀ (l : List (ℕ × ℚ)) (st : ℚ × ℕ × List Seg),
      (∀ sg ∈ st.2.2, 1 ≤ sg.length ∧ 0 ≤ sg.value) → (st.2.1 = 0 → st.1 = 0) →
      ∀ sg ∈ (l.foldl (seg_step average) st).2.2, 1 ≤ sg.length ∧ 0 ≤ sg.value := by
  intro l
  induction l with
  | nil => intro st hgood _; exact hgood
  | cons p t ih =>
    intro st hgood hzero
    rw [List.foldl_cons]
    refine ih (seg_step average st p) ?_ ?_
    · unfold seg_step
      split
      · simpa using hgood
      · intro sg hsg
        simp only [List.mem_append] at hsg
        rcases hsg with hsg | hsg
        · exact hgood sg hsg
        · by_cases ht : 1/40 < |st.1|
          · simp only [ht, if_true, List.mem_singleton] at hsg
            subst hsg
            refine ⟨?_, abs_nonneg st.1⟩
            by_contra hlen
            have h2 : st.2.1 = 0 := by
              simp only [not_le, Nat.lt_one_iff] at hlen
              exact hlen
            have h3 := hzero h2
            rw [h3] at ht
            norm_num at ht
          · rw [if_neg ht] at hsg
            simp at hsg
    · unfold seg_step
      split <;> simp

theorem segs_of_good (average : ℚ) (vals : List ℚ) :
    ∀ sg ∈ segs_of average vals, 1 ≤ sg.length ∧ 0 ≤ sg.value := by
  unfold segs_of
  exact seg_fold_good average vals.enum (0, 0, []) (by simp) (by simp)

theorem ray_segments_good (B : ImageData) (o : Options) (x y j : ℕ) :
    ∀ sg ∈ ray_segments B o x y j, 1 ≤ sg.length ∧ 0 ≤ sg.value := by
  intro sg hsg
  unfold ray_segments at hsg
  cases h : seqOpt (ray_samples B (settings o) x y j) with
  | none => rw [h] at hsg; simp at hsg
  | some vals => rw [h] at hsg; exact segs_of_good _ vals sg hsg

theorem summarize_magnitude_nonneg (segs : List Seg)
    (hval : ∀ sg ∈ segs, 0 ≤ sg.value) :
    0 ≤ (summarize segs).magnitude := by
  unfold summarize
  suffices h : ∀ (l : List Seg), (∀ sg ∈ l, 0 ≤ sg.value) → ∀ (md : ℚ × ℚ), 0 ≤ md.1 →
      0 ≤ (l.foldl (fun (md : ℚ × ℚ) r =>
        (md.1 + r.value / (r.length : ℚ), md.2 + r.value / (r.length : ℚ) * (r.position : ℚ))) md).1 by
    exact h segs hval (0, 0) le_rfl
  intro l
  induction l with
  | nil => intro _ md h; exact h
  | cons r t ih =>
    intro hv md h
    rw [List.foldl_cons]
    refine ih (fun sg hsg => hv sg (List.mem_cons_of_mem r hsg)) _ ?_
    have hr : 0 ≤ r.value := hv r (List.mem_cons_self r t)
    have : 0 ≤ r.value / (r.length : ℚ) := div_nonneg hr (Nat.cast_nonneg r.length)
    simpa using add_nonneg h this

theorem magnitude_nonneg (B : ImageData) (o : Options) (x y j : ℕ) :
    0 ≤ magnitude B o x y j :=
  summarize_magnitude_nonneg _ (fun sg hsg => (ray_segments_good B o x y j sg hsg).2)

end RT

namespace RT

theorem seqOpt_length : ∀ (l : List (Option ℚ)) (vals : List ℚ), seqOpt l = some vals → vals.length = l.length := by
  intro l
  induction l with
  | nil => intro vals h; simp [seqOpt] at h; simp [h.symm]
  | cons q t ih =>
    intro vals h
    cases q with
    | none => simp [seqOpt] at h
    | some v =>
      simp only [seqOpt, Option.map_eq_some'] at h
      obtain ⟨tl, htl, rfl⟩ := h
      simp [ih tl htl]

theorem seqOpt_mem : ∀ (l : List (Option ℚ)) (vals : List ℚ), seqOpt l = some vals → ∀ v ∈ vals, some v ∈ l := by
  intro l
  induction l with
  | nil =>
    intro vals h v hv
    simp only [seqOpt, Option.some_inj] at h
    subst h
    simp at hv
  | cons q t ih =>
    intro vals h v hv
    cases q with
    | none => simp [seqOpt] at h
    | some w =>
      simp only [seqOpt, Option.map_eq_some'] at h
      obtain ⟨tl, htl, rfl⟩ := h
      rcases List.mem_cons.mp hv with h1 | h1
      · subst h1; exact List.mem_cons_self _ _
      · exact List.mem_cons_of_mem _ (ih tl htl v h1)

theorem ray_samples_length (B : ImageData) (s : Settings) (x y j : ℕ) :
    (ray_samples B s x y j).length = s.rs := by
  simp [ray_samples]

theorem ray_segments_none (B : ImageData) (o : Options) (x y j : ℕ)
    (hall : ∀ q ∈ ray_samples B (settings o) x y j, q = none) :
    ray_segments B o x y j = [] := by
  unfold ray_segments
  cases h : seqOpt (ray_samples B (settings o) x y j) with
  | none => rfl
  | some vals =>
    have hnil : vals = [] := by
      rw [List.eq_nil_iff_forall_not_mem]
      intro v hv
      have := hall (some v) (seqOpt_mem _ vals h v hv)
      simp at this
    rw [hnil]
    simp [segs_of]

theorem flatten_replicate_length (n : ℕ) (p : List ℕ) :
    (List.replicate n p).flatten.length = n * p.length := by
  simp [List.length_flatten, List.map_replicate, List.sum_replicate, smul_eq_mul]

theorem flatten_replicate_getD (p : List ℕ) :
    ∀ (n i : ℕ), i < n * p.length → (List.replicate n p).flatten.getD i 0 = p.getD (i % p.length) 0 := by
  intro n
  induction n with
  | zero => intro i h; simp at h
  | succ m ih =>
    intro i h
    rw [List.replicate_succ, List.flatten_cons]
    by_cases hi : i < p.length
    · rw [List.getD_append _ _ _ _ hi, Nat.mod_eq_of_lt hi]
    · push_neg at hi
      rw [List.getD_append_right _ _ _ _ hi]
      have hlt : i - p.length < m * p.length := by
        have h2 : i < m * p.length + p.length := by
          calc i < (m + 1) * p.length := h
          _ = m * p.length + p.length := by ring
        omega
      rw [ih (i - p.length) hlt, Nat.mod_eq_sub_mod hi]

theorem byteAt_empty (B : ImageData) (hB : B.data = []) (o : ℤ) : byteAt B o = none := by
  unfold byteAt
  rw [hB]
  simp

theorem luminosity_empty_data (B : ImageData) (hB : B.data = []) (ux uy : ℕ) :
    luminosity B ux uy = none := by
  unfold luminosity
  rw [byteAt_empty B hB, byteAt_empty B hB, byteAt_empty B hB]
  rfl

theorem empty_data_segments (w h : ℕ) (o : Options) (x y j : ℕ) :
    ray_segments ⟨w, h, []⟩ o x y j = [] := by
  apply ray_segments_none
  intro q hq
  simp only [ray_samples, List.mem_map] at hq
  obtain ⟨d, _, hd⟩ := hq
  rw [← hd]
  exact luminosity_empty_data _ rfl _ _

theorem biases_of_zero (s : Settings) (m : ℕ → ℚ) (hm : ∀ j, m j = 0) :
    biases s m = ⟨0, 0, 0, 0, 0, 0⟩ := by
  unfold biases
  suffices hstep : ∀ (l : List (ℕ × (ℤ × ℤ))) (acc : Biases), l.foldl (bias_step m) acc = acc by
    exact hstep _ _
  intro l
  induction l with
  | nil => intro acc; rfl
  | cons p t ih =>
    intro acc
    rw [List.foldl_cons]
    have h1 : bias_step m acc p = acc := by
      unfold bias_step
      simp only [hm, zero_mul, add_zero]
      split <;> split <;> split <;> rfl
    rw [h1, ih]

theorem raw_classification_zero (B : ImageData) (o : Options) (x y : ℕ)
    (hm : ∀ j, magnitude B o x y j = 0) :
    raw_classification B o x y = ⟨0, 0, 0, 0, 0, 0, 0⟩ := by
  simp only [raw_classification]
  rw [biases_of_zero (settings o) _ hm]
  simp

theorem magnitude_of_segs_nil (B : ImageData) (o : Options) (x y : ℕ)
    (hseg : ∀ j, ray_segments B o x y j = []) (j : ℕ) :
    magnitude B o x y j = 0 := by
  unfold magnitude ray_summary
  rw [hseg j, summarize_nil]

theorem cell_interior_of_segs_empty (B : ImageData) (o : Options)
    (hseg : ∀ x y j, ray_segments B o x y j = []) (i j : ℕ) :
    ((grid_of B o).cell i j).interior = 0 := by
  show (classified_point B o _ _).interior = 0
  unfold classified_point
  rw [raw_classification_zero B o _ _ (fun j2 => magnitude_of_segs_nil B o _ _ (fun j3 => hseg _ _ j3) j2)]
  simp

theorem result_nil_of_segs_empty (B : ImageData) (o : Options) (hmi : 0 < (settings o).mi)
    (hseg : ∀ x y j, ray_segments B o x y j = []) : recognize_text B o = [] := by
  unfold recognize_text maximum_confidence rectangles grown
  cases hs : sorted_by_interior B o with
  | nil => simp [grow_loop, survivor_loop]
  | cons p rest =>
    have hnot : ¬ (((settings o).mi : ℝ) < ((grid_of B o).cell p.1 p.2).interior) := by
      rw [cell_interior_of_segs_empty B o hseg]
      have : (0 : ℝ) < ((settings o).mi : ℝ) := by exact_mod_cast hmi
      exact not_lt.mpr this.le
    simp [grow_loop, hnot, survivor_loop]

theorem empty_data_result (w h : ℕ) (o : Options) (hv : ValidOptions o) :
    recognize_text ⟨w, h, []⟩ o = [] :=
  result_nil_of_segs_empty _ o hv.2.1 (fun x y j => empty_data_segments w h o x y j)

end RT

namespace RT

theorem lum_bytes_fst_none (y z : Option ℚ) : lum_bytes none y z = none := by
  cases y <;> cases z <;> rfl

theorem lum_bytes_trd_none (x y : Option ℚ) : lum_bytes x y none = none := by
  cases x <;> cases y <;> rfl

theorem toInt32_dvd4 (z : ℤ) (h : (4 : ℤ) ∣ z) : (4 : ℤ) ∣ toInt32 z := by
  have h4 : (4 : ℤ) ∣ z % 4294967296 := by
    rw [Int.emod_def]
    exact dvd_sub h (Dvd.dvd.mul_right (by norm_num) _)
  unfold toInt32
  by_cases hc : z % 4294967296 < 2147483648
  · simpa [hc] using h4
  · simpa [hc] using dvd_sub h4 (by norm_num : (4 : ℤ) ∣ 4294967296)

theorem pixel_offset_dvd (B : ImageData) (ux uy : ℕ) : (4 : ℤ) ∣ pixel_offset B ux uy :=
  toInt32_dvd4 _ (dvd_mul_right 4 _)

theorem data_length_uniform (B : ImageData) (r g b a : ℕ)
    (hB : B.data = (List.replicate (B.width * B.height) [r, g, b, a]).flatten) :
    B.data.length = B.width * B.height * 4 := by
  rw [hB, flatten_replicate_length]
  rfl

theorem byteAt_uniform (B : ImageData) (r g b a : ℕ)
    (hB : B.data = (List.replicate (B.width * B.height) [r, g, b, a]).flatten)
    (o : ℤ) (h0 : 0 ≤ o) (hlt : o.toNat < B.data.length) :
    byteAt B o = some (([r, g, b, a].getD (o.toNat % 4) 0 : ℕ) : ℚ) := by
  have hbound : o.toNat < B.width * B.height * ([r, g, b, a] : List ℕ).length := by
    have hl := data_length_uniform B r g b a hB
    simp only [List.length_cons, List.length_nil]
    omega
  unfold byteAt
  rw [if_pos ⟨h0, hlt⟩, hB, flatten_replicate_getD _ _ _ hbound]
  rfl

theorem luminosity_uniform (B : ImageData) (r g b a : ℕ)
    (hB : B.data = (List.replicate (B.width * B.height) [r, g, b, a]).flatten) (ux uy : ℕ) :
    luminosity B ux uy = none ∨
      luminosity B ux uy = some ((r : ℚ) * r_bias + (g : ℚ) * g_bias + (b : ℚ) * b_bias) := by
  have hdvd := pixel_offset_dvd B ux uy
  obtain ⟨k, hk⟩ := hdvd
  by_cases hin : 0 ≤ pixel_offset B ux uy ∧ (pixel_offset B ux uy).toNat + 2 < B.data.length
  · right
    obtain ⟨h0, h2⟩ := hin
    have hb0 : byteAt B (pixel_offset B ux uy) = some ((r : ℕ) : ℚ) := by
      rw [byteAt_uniform B r g b a hB _ h0 (by omega)]
      have hm : (pixel_offset B ux uy).toNat % 4 = 0 := by omega
      rw [hm]
      rfl
    have hb1 : byteAt B (pixel_offset B ux uy + 1) = some ((g : ℕ) : ℚ) := by
      rw [byteAt_uniform B r g b a hB _ (by omega) (by omega)]
      have hm : (pixel_offset B ux uy + 1).toNat % 4 = 1 := by omega
      rw [hm]
      rfl
    have hb2 : byteAt B (pixel_offset B ux uy + 2) = some ((b : ℕ) : ℚ) := by
      rw [byteAt_uniform B r g b a hB _ (by omega) (by omega)]
      have hm : (pixel_offset B ux uy + 2).toNat % 4 = 2 := by omega
      rw [hm]
      rfl
    unfold luminosity
    rw [hb0, hb1, hb2]
    rfl
  · left
    unfold luminosity
    rcases not_and_or.mp hin with h0 | h2
    · have hb0 : byteAt B (pixel_offset B ux uy) = none := by
        unfold byteAt
        rw [if_neg]
        intro hc
        exact h0 hc.1
      rw [hb0]
      exact lum_bytes_fst_none _ _
    · by_cases h0 : 0 ≤ pixel_offset B ux uy
      · have hb2 : byteAt B (pixel_offset B ux uy + 2) = none := by
          unfold byteAt
          rw [if_neg]
          intro hc
          have := hc.2
          omega
        rw [hb2]
        exact lum_bytes_trd_none _ _
      · have hb0 : byteAt B (pixel_offset B ux uy) = none := by
          unfold byteAt
          rw [if_neg]
          intro hc
          exact h0 hc.1
        rw [hb0]
        exact lum_bytes_fst_none _ _

theorem uniform_segments (B : ImageData) (o : Options) (r g b a : ℕ)
    (hB : B.data = (List.replicate (B.width * B.height) [r, g, b, a]).flatten) (x y j : ℕ) :
    ray_segments B o x y j = [] := by
  unfold ray_segments
  cases h : seqOpt (ray_samples B (settings o) x y j) with
  | none => rfl
  | some vals =>
    show segs_of (vals.sum / (((settings o).rs : ℕ) : ℚ)) vals = []
    have hv : ∀ v ∈ vals, v = (r : ℚ) * r_bias + (g : ℚ) * g_bias + (b : ℚ) * b_bias := by
      intro v hvv
      have hmem := seqOpt_mem _ vals h v hvv
      simp only [ray_samples, List.mem_map] at hmem
      obtain ⟨d, _, hd⟩ := hmem
      rcases luminosity_uniform B r g b a hB
          (toUint32 (sample_coord (settings o) x y j d).1)
          (toUint32 (sample_coord (settings o) x y j d).2) with hN | hS
      · rw [hN] at hd
        exact absurd hd (by simp)
      · rw [hS] at hd
        exact (Option.some_inj.mp hd).symm
    have hlen : vals.length = (settings o).rs := by
      rw [seqOpt_length _ _ h, ray_samples_length]
    have hrep : vals =
        List.replicate ((settings o).rs) ((r : ℚ) * r_bias + (g : ℚ) * g_bias + (b : ℚ) * b_bias) := by
      have h2 := List.eq_replicate_of_mem hv
      rw [hlen] at h2
      exact h2
    rw [hrep]
    have hrs : (((settings o).rs : ℕ) : ℚ) ≠ 0 := by
      exact_mod_cast (settings_rs_pos o).ne'
    have havg : (List.replicate ((settings o).rs)
        ((r : ℚ) * r_bias + (g : ℚ) * g_bias + (b : ℚ) * b_bias)).sum / (((settings o).rs : ℕ) : ℚ) =
        (r : ℚ) * r_bias + (g : ℚ) * g_bias + (b : ℚ) * b_bias := by
      rw [List.sum_replicate, nsmul_eq_mul]
      field_simp
    rw [havg]
    exact segs_of_const _ _ (fun v hv2 => List.eq_of_mem_replicate hv2)

end RT

namespace RT

theorem bias_step_totals (m : ℕ → ℚ) (hm : ∀ j, 0 ≤ m j) (acc : Biases) (p : ℕ × (ℤ × ℤ))
    (h : 0 ≤ acc.ht ∧ 0 ≤ acc.vt ∧ 0 ≤ acc.dt) :
    0 ≤ (bias_step m acc p).ht ∧ 0 ≤ (bias_step m acc p).vt ∧ 0 ≤ (bias_step m acc p).dt := by
  have hadd : ∀ (q : ℚ) (z : ℤ), 0 ≤ q → 0 ≤ q + m p.1 * |(z : ℚ)| :=
    fun q z hq => add_nonneg hq (mul_nonneg (hm p.1) (abs_nonneg _))
  obtain ⟨h1, h2, h3⟩ := h
  simp only [bias_step]
  repeat' split
  all_goals exact
    ⟨by first | exact h1 | exact hadd _ _ h1,
     by first | exact h2 | exact hadd _ _ h2,
     by first | exact h3 | exact hadd _ _ h3⟩

theorem biases_totals_nonneg (s : Settings) (m : ℕ → ℚ) (hm : ∀ j, 0 ≤ m j) :
    0 ≤ (biases s m).ht ∧ 0 ≤ (biases s m).vt ∧ 0 ≤ (biases s m).dt := by
  unfold biases
  have hfold : ∀ (l : List (ℕ × (ℤ × ℤ))) (acc : Biases),
      (0 ≤ acc.ht ∧ 0 ≤ acc.vt ∧ 0 ≤ acc.dt) →
      0 ≤ (l.foldl (bias_step m) acc).ht ∧ 0 ≤ (l.foldl (bias_step m) acc).vt ∧
        0 ≤ (l.foldl (bias_step m) acc).dt := by
    intro l
    induction l with
    | nil => exact fun acc h => h
    | cons p t ih =>
      intro acc h
      rw [List.foldl_cons]
      exact ih _ (bias_step_totals m hm acc p h)
  exact hfold _ _ ⟨le_rfl, le_rfl, le_rfl⟩

theorem sq_sum_nonneg (c : RawCls) : 0 ≤ sq_sum c := by
  unfold sq_sum
  have l1 := mul_self_nonneg c.interior
  have l2 := mul_self_nonneg c.left_edge
  have l3 := mul_self_nonneg c.right_edge
  have l4 := mul_self_nonneg c.top_edge
  have l5 := mul_self_nonneg c.bottom_edge
  have l6 := mul_self_nonneg c.nw_corner
  have l7 := mul_self_nonneg c.se_corner
  linarith

theorem raw_interior_eq (B : ImageData) (o : Options) (x y : ℕ) :
    (raw_classification B o x y).interior =
      (settings o).ib * (biases (settings o) (fun j => magnitude B o x y j)).ht +
        (biases (settings o) (fun j => magnitude B o x y j)).dt +
        (biases (settings o) (fun j => magnitude B o x y j)).vt := by
  simp [raw_classification]

theorem raw_left_edge_nonneg (B : ImageData) (o : Options) (x y : ℕ) :
    0 ≤ (raw_classification B o x y).left_edge := by
  simp only [raw_classification]
  split
  · linarith [lt_of_not_le (fun hc => absurd (by assumption) (not_lt.mpr hc))]
  · exact le_rfl

theorem raw_right_edge_nonneg (B : ImageData) (o : Options) (x y : ℕ) :
    0 ≤ (raw_classification B o x y).right_edge := by
  simp only [raw_classification]
  split
  · linarith [lt_of_not_le (fun hc => absurd (by assumption) (not_lt.mpr hc))]
  · exact le_rfl

theorem raw_interior_nonneg (B : ImageData) (o : Options) (x y : ℕ) (hib : 0 ≤ (settings o).ib) :
    0 ≤ (raw_classification B o x y).interior := by
  rw [raw_interior_eq]
  obtain ⟨h1, h2, h3⟩ := biases_totals_nonneg (settings o) (fun j => magnitude B o x y j)
    (fun j => magnitude_nonneg B o x y j)
  have := mul_nonneg hib h1
  linarith

theorem classification_distance_one_le (B : ImageData) (o : Options) (x y : ℕ) :
    (1 : ℝ) ≤ classification_distance B o x y :=
  le_max_left _ _

theorem classification_distance_pos (B : ImageData) (o : Options) (x y : ℕ) :
    (0 : ℝ) < classification_distance B o x y :=
  lt_of_lt_of_le one_pos (classification_distance_one_le B o x y)

theorem classification_distance_sq (B : ImageData) (o : Options) (x y : ℕ) :
    classification_distance B o x y ^ 2 =
      max 1 ((sq_sum (raw_classification B o x y) : ℚ) : ℝ) := by
  unfold classification_distance
  have hs : (0 : ℝ) ≤ ((sq_sum (raw_classification B o x y) : ℚ) : ℝ) := by
    exact_mod_cast sq_sum_nonneg (raw_classification B o x y)
  by_cases h1 : ((sq_sum (raw_classification B o x y) : ℚ) : ℝ) ≤ 1
  · rw [max_eq_left (Real.sqrt_le_one.mpr h1), one_pow, max_eq_left h1]
  · push_neg at h1
    rw [max_eq_right (Real.one_le_sqrt.mpr h1.le), Real.sq_sqrt hs, max_eq_right h1.le]

end RT

namespace RT

@[simp] theorem castGrid_nx (g : Grid ℚ) : (castGrid g).nx = g.nx := rfl

@[simp] theorem castGrid_ny (g : Grid ℚ) : (castGrid g).ny = g.ny := rfl

@[simp] theorem castGrid_xcoord (g : Grid ℚ) : (castGrid g).xcoord = g.xcoord := rfl

@[simp] theorem castGrid_ycoord (g : Grid ℚ) : (castGrid g).ycoord = g.ycoord := rfl

@[simp] theorem castGrid_cell (g : Grid ℚ) (i j : ℕ) :
    (castGrid g).cell i j = castPt (g.cell i j) := rfl

@[simp] theorem castPt_interior (p : Pt ℚ) : (castPt p).interior = (p.interior : ℝ) := rfl

@[simp] theorem castPt_left_edge (p : Pt ℚ) : (castPt p).left_edge = (p.left_edge : ℝ) := rfl

@[simp] theorem castPt_right_edge (p : Pt ℚ) : (castPt p).right_edge = (p.right_edge : ℝ) := rfl

@[simp] theorem castPt_top_edge (p : Pt ℚ) : (castPt p).top_edge = (p.top_edge : ℝ) := rfl

@[simp] theorem castPt_bottom_edge (p : Pt ℚ) : (castPt p).bottom_edge = (p.bottom_edge : ℝ) := rfl

@[simp] theorem castPt_nw_corner (p : Pt ℚ) : (castPt p).nw_corner = (p.nw_corner : ℝ) := rfl

@[simp] theorem castPt_se_corner (p : Pt ℚ) : (castPt p).se_corner = (p.se_corner : ℝ) := rfl

@[simp] theorem castPt_axis_magnitude (p : Pt ℚ) :
    (castPt p).axis_magnitude = (p.axis_magnitude : ℝ) := rfl

@[simp] theorem castRect_confidence (r : Rectangle ℚ) :
    (castRect r).confidence = (r.confidence : ℝ) := rfl

theorem walk_up_cast (g : Grid ℚ) (i : ℕ) :
    ∀ (j : ℕ) (t : ℚ) (d : ℕ), walk_up (castGrid g) i j ((t : ℚ) : ℝ) d = walk_up g i j t d := by
  intro j
  induction j with
  | zero => intro t d; rfl
  | succ j ih =>
    intro t d
    unfold walk_up
    simp only [castGrid_cell, castPt_interior, castPt_top_edge]
    refine if_congr ?_ ?_ rfl
    · constructor
      · rintro ⟨ha, hb⟩
        refine ⟨by exact_mod_cast ha, ?_⟩
        rcases hb with hb | hb
        · exact Or.inl hb
        · right; exact_mod_cast hb
      · rintro ⟨ha, hb⟩
        refine ⟨by exact_mod_cast ha, ?_⟩
        rcases hb with hb | hb
        · exact Or.inl hb
        · right; exact_mod_cast hb
    · have harg : ((t : ℚ) : ℝ) + ((((g.cell i (j + 1)).interior : ℚ) : ℝ) -
          (((g.cell i (j + 1)).top_edge : ℚ) : ℝ)) =
          ((t + ((g.cell i (j + 1)).interior - (g.cell i (j + 1)).top_edge) : ℚ) : ℝ) := by
        push_cast
        ring
      rw [harg]
      exact ih _ _

theorem walk_down_cast (g : Grid ℚ) (i : ℕ) :
    ∀ (gap j : ℕ) (t : ℚ) (d : ℕ),
      walk_down (castGrid g) i gap j ((t : ℚ) : ℝ) d = walk_down g i gap j t d := by
  intro gap
  induction gap with
  | zero => intro j t d; rfl
  | succ gap ih =>
    intro j t d
    unfold walk_down
    simp only [castGrid_cell, castPt_interior, castPt_bottom_edge]
    refine if_congr ?_ ?_ rfl
    · constructor
      · rintro ⟨ha, hb⟩
        refine ⟨by exact_mod_cast ha, ?_⟩
        rcases hb with hb | hb
        · exact Or.inl hb
        · right; exact_mod_cast hb
      · rintro ⟨ha, hb⟩
        refine ⟨by exact_mod_cast ha, ?_⟩
        rcases hb with hb | hb
        · exact Or.inl hb
        · right; exact_mod_cast hb
    · have harg : ((t : ℚ) : ℝ) + ((((g.cell i j).interior : ℚ) : ℝ) -
          (((g.cell i j).bottom_edge : ℚ) : ℝ)) =
          ((t + ((g.cell i j).interior - (g.cell i j).bottom_edge) : ℚ) : ℝ) := by
        push_cast
        ring
      rw [harg]
      exact ih _ _ _

theorem walk_left_cast (g : Grid ℚ) (jrow jtop : ℕ) (leb : ℚ) :
    ∀ i : ℕ, walk_left (castGrid g) jrow jtop ((leb : ℚ) : ℝ) i = walk_left g jrow jtop leb i := by
  intro i
  induction i with
  | zero => rfl
  | succ i ih =>
    unfold walk_left
    simp only [castGrid_cell, castPt_interior, castPt_left_edge, castPt_top_edge,
      castPt_nw_corner]
    refine if_congr ?_ ?_ rfl
    · constructor
      · intro h; exact_mod_cast h
      · intro h; exact_mod_cast h
    · exact ih

theorem walk_right_cast (g : Grid ℚ) (jrow jbot : ℕ) (reb : ℚ) :
    ∀ (gap i : ℕ),
      walk_right (castGrid g) jrow jbot ((reb : ℚ) : ℝ) gap i = walk_right g jrow jbot reb gap i := by
  intro gap
  induction gap with
  | zero => intro i; rfl
  | succ gap ih =>
    intro i
    unfold walk_right
    simp only [castGrid_cell, castPt_interior, castPt_right_edge, castPt_bottom_edge,
      castPt_se_corner]
    refine if_congr ?_ ?_ rfl
    · constructor
      · intro h; exact_mod_cast h
      · intro h; exact_mod_cast h
    · exact ih _

@[norm_cast] theorem range_sum_cast (lo hi : ℕ) (f : ℕ → ℚ) :
    range_sum lo hi (fun k => ((f k : ℚ) : ℝ)) = ((range_sum lo hi f : ℚ) : ℝ) := by
  unfold range_sum
  rw [show ((List.range (hi - lo)).map fun k => ((f (lo + k) : ℚ) : ℝ)) =
      ((List.range (hi - lo)).map (fun k => f (lo + k))).map (fun q : ℚ => (q : ℝ)) by
    rw [List.map_map]; rfl]
  exact (map_list_sum (Rat.castHom ℝ) _).symm

theorem walk_up_cast0 (g : Grid ℚ) (i j d : ℕ) :
    walk_up (castGrid g) i j (0 : ℝ) d = walk_up g i j 0 d := by
  simpa using walk_up_cast g i j 0 d

theorem walk_down_cast0 (g : Grid ℚ) (i gap j d : ℕ) :
    walk_down (castGrid g) i gap j (0 : ℝ) d = walk_down g i gap j 0 d := by
  simpa using walk_down_cast g i gap j 0 d

theorem grow_cast (g : Grid ℚ) (leb reb : ℚ) (hs vs i j : ℕ) :
    grow (castGrid g) ((leb : ℚ) : ℝ) ((reb : ℚ) : ℝ) hs vs i j =
      (((grow g leb reb hs vs i j).1 : ℝ), castRect (grow g leb reb hs vs i j).2) := by
  simp only [grow, castGrid_nx, castGrid_ny, castGrid_xcoord, castGrid_ycoord]
  rw [walk_up_cast0, walk_down_cast0, walk_left_cast, walk_right_cast]
  generalize walk_up g i (j - 1) 0 0 = jt
  generalize walk_down g i (g.ny - 1 - (j + 1)) (j + 1) 0 0 = jb
  generalize walk_left g j jt leb i = il
  generalize walk_right g j jb reb (g.nx - 1 - i) i = ir
  simp only [castGrid_cell, castPt_interior, castPt_left_edge, castPt_right_edge,
    castPt_top_edge, castPt_bottom_edge, castPt_nw_corner, castPt_se_corner,
    castPt_axis_magnitude]
  have h_inner :
      range_sum (il + 1) ir (fun ii => range_sum (jt + 1) jb fun jj =>
        (((g.cell ii jj).interior : ℚ) : ℝ)) =
      ((range_sum (il + 1) ir fun ii => range_sum (jt + 1) jb fun jj =>
        (g.cell ii jj).interior : ℚ) : ℝ) := by
    calc range_sum (il + 1) ir (fun ii => range_sum (jt + 1) jb fun jj =>
        (((g.cell ii jj).interior : ℚ) : ℝ))
        = range_sum (il + 1) ir (fun ii =>
            ((range_sum (jt + 1) jb (fun jj => (g.cell ii jj).interior) : ℚ) : ℝ)) := by
          congr 1
          funext ii
          exact range_sum_cast _ _ _
      _ = _ := range_sum_cast _ _ _
  have h_tb :
      range_sum (il + 1) ir (fun k => (((g.cell k jt).top_edge : ℚ) : ℝ) +
        (((g.cell (il + ir - k) jb).bottom_edge : ℚ) : ℝ)) =
      ((range_sum (il + 1) ir fun k => (g.cell k jt).top_edge +
        (g.cell (il + ir - k) jb).bottom_edge : ℚ) : ℝ) := by
    calc range_sum (il + 1) ir (fun k => (((g.cell k jt).top_edge : ℚ) : ℝ) +
        (((g.cell (il + ir - k) jb).bottom_edge : ℚ) : ℝ))
        = range_sum (il + 1) ir (fun k => (((g.cell k jt).top_edge +
            (g.cell (il + ir - k) jb).bottom_edge : ℚ) : ℝ)) := by
          congr 1
          funext k
          push_cast
          ring
      _ = _ := range_sum_cast _ _ _
  have h_lr :
      range_sum (jt + 1) jb (fun k => (((g.cell il k).left_edge : ℚ) : ℝ) +
        (((g.cell ir (jt + jb - k)).right_edge : ℚ) : ℝ)) =
      ((range_sum (jt + 1) jb fun k => (g.cell il k).left_edge +
        (g.cell ir (jt + jb - k)).right_edge : ℚ) : ℝ) := by
    calc range_sum (jt + 1) jb (fun k => (((g.cell il k).left_edge : ℚ) : ℝ) +
        (((g.cell ir (jt + jb - k)).right_edge : ℚ) : ℝ))
        = range_sum (jt + 1) jb (fun k => (((g.cell il k).left_edge +
            (g.cell ir (jt + jb - k)).right_edge : ℚ) : ℝ)) := by
          congr 1
          funext k
          push_cast
          ring
      _ = _ := range_sum_cast _ _ _
  rw [h_inner, h_tb, h_lr]
  simp only [Prod.mk.injEq]
  constructor
  · push_cast
    ring
  · simp [castRect]

theorem grow_loop_cast (g : Grid ℚ) (mi leb reb : ℚ) (hs vs : ℕ) :
    ∀ (l : List (ℕ × ℕ)) (maxc : ℚ) (rects : List (Rectangle ℚ)),
      grow_loop (castGrid g) ((mi : ℚ) : ℝ) ((leb : ℚ) : ℝ) ((reb : ℚ) : ℝ) hs vs l
          ((maxc : ℚ) : ℝ) (rects.map castRect) =
        (((grow_loop g mi leb reb hs vs l maxc rects).1 : ℝ),
          (grow_loop g mi leb reb hs vs l maxc rects).2.map castRect) := by
  intro l
  induction l with
  | nil => intro maxc rects; rfl
  | cons p rest ih =>
    intro maxc rects
    unfold grow_loop
    by_cases h1 : mi < (g.cell p.1 p.2).interior
    · have h1r : ((mi : ℚ) : ℝ) < ((castGrid g).cell p.1 p.2).interior := by
        simp only [castGrid_cell, castPt_interior]
        exact_mod_cast h1
      rw [if_pos h1, if_pos h1r]
      by_cases h2 : 0 < p.1 ∧ p.1 + 1 < g.nx ∧ 0 < p.2 ∧ p.2 + 1 < g.ny
      · have h2r : 0 < p.1 ∧ p.1 + 1 < (castGrid g).nx ∧ 0 < p.2 ∧ p.2 + 1 < (castGrid g).ny := h2
        rw [if_pos h2, if_pos h2r, grow_cast]
        have hmax : max (((grow g leb reb hs vs p.1 p.2).1 : ℚ) : ℝ) ((maxc : ℚ) : ℝ) =
            ((max (grow g leb reb hs vs p.1 p.2).1 maxc : ℚ) : ℝ) := by
          rw [Rat.cast_max]
        have happ : (rects.map castRect) ++ [castRect (grow g leb reb hs vs p.1 p.2).2] =
            (rects ++ [(grow g leb reb hs vs p.1 p.2).2]).map castRect := by
          rw [List.map_append]
          rfl
        dsimp only
        rw [hmax, happ]
        exact ih _ _
      · have h2r : ¬ (0 < p.1 ∧ p.1 + 1 < (castGrid g).nx ∧ 0 < p.2 ∧ p.2 + 1 < (castGrid g).ny) := h2
        rw [if_neg h2, if_neg h2r]
        exact ih _ _
    · have h1r : ¬ (((mi : ℚ) : ℝ) < ((castGrid g).cell p.1 p.2).interior) := by
        simp only [castGrid_cell, castPt_interior]
        exact_mod_cast h1
      rw [if_neg h1, if_neg h1r]

theorem survivor_loop_cast (mc maxc : ℚ) :
    ∀ l : List (Rectangle ℚ),
      survivor_loop ((mc : ℚ) : ℝ) ((maxc : ℚ) : ℝ) (l.map castRect) =
        (survivor_loop mc maxc l).map castRect := by
  intro l
  induction l with
  | nil => rfl
  | cons r t ih =>
    simp only [List.map_cons, survivor_loop]
    have hconf : (castRect r).confidence / ((maxc : ℚ) : ℝ) = ((r.confidence / maxc : ℚ) : ℝ) := by
      rw [castRect_confidence]
      push_cast
      ring
    by_cases h : mc ≤ r.confidence / maxc
    · have hr : ((mc : ℚ) : ℝ) ≤ (castRect r).confidence / ((maxc : ℚ) : ℝ) := by
        rw [hconf]
        exact_mod_cast h
      rw [if_pos h, if_pos hr, ih]
      simp only [List.map_cons, List.singleton_append, List.cons_append, List.nil_append]
      congr 1
      simp only [castRect, Rat.cast_div]
    · have hr : ¬ (((mc : ℚ) : ℝ) ≤ (castRect r).confidence / ((maxc : ℚ) : ℝ)) := by
        rw [hconf]
        exact_mod_cast h
      rw [if_neg h, if_neg hr, ih]
      simp

theorem getD_mem_zero_cons (l : List ℕ) (i : ℕ) : l.getD i 0 ∈ 0 :: l := by
  by_cases h : i < l.length
  · exact List.mem_cons_of_mem _ (by rw [List.getD_eq_getElem l 0 h]; exact List.getElem_mem h)
  · push_neg at h
    rw [List.getD_eq_default l 0 h]
    exact List.mem_cons_self _ _

theorem classified_point_collapse (B : ImageData) (o : Options) (x y : ℕ)
    (h : sq_sum (raw_classification B o x y) ≤ 1) :
    classified_point B o x y = castPt (classified_point_rat B o x y) := by
  have hcd : classification_distance B o x y = 1 := by
    unfold classification_distance
    rw [max_eq_left]
    exact Real.sqrt_le_one.mpr (by exact_mod_cast h)
  simp only [classified_point, classified_point_rat, castPt, hcd, div_one]

theorem grid_collapse (B : ImageData) (o : Options)
    (H : ∀ x ∈ 0 :: xs B o, ∀ y ∈ 0 :: ys B o, sq_sum (raw_classification B o x y) ≤ 1) :
    grid_of B o = castGrid (grid_rat B o) := by
  unfold grid_of grid_rat castGrid
  congr 1
  funext i j
  exact classified_point_collapse B o _ _
    (H _ (getD_mem_zero_cons (xs B o) i) _ (getD_mem_zero_cons (ys B o) j))

theorem sorted_cast (B : ImageData) (o : Options)
    (hg : grid_of B o = castGrid (grid_rat B o)) :
    sorted_by_interior B o = sorted_by_interior_rat B o := by
  unfold sorted_by_interior sorted_by_interior_rat
  congr 1
  funext a b
  rw [hg]
  simp only [castGrid_cell, castPt_interior]
  exact decide_eq_decide.mpr Rat.cast_le

theorem grown_cast (B : ImageData) (o : Options)
    (H : ∀ x ∈ 0 :: xs B o, ∀ y ∈ 0 :: ys B o, sq_sum (raw_classification B o x y) ≤ 1) :
    grown B o = (((grown_rat B o).1 : ℝ), (grown_rat B o).2.map castRect) := by
  have hg := grid_collapse B o H
  unfold grown grown_rat
  rw [hg, sorted_cast B o hg]
  have := grow_loop_cast (grid_rat B o) (settings o).mi (settings o).leb (settings o).reb
    (settings o).hs (settings o).vs (sorted_by_interior_rat B o) 0 []
  simpa using this

theorem recognize_text_eq_rat (B : ImageData) (o : Options)
    (H : ∀ x ∈ 0 :: xs B o, ∀ y ∈ 0 :: ys B o, sq_sum (raw_classification B o x y) ≤ 1) :
    recognize_text B o = (recognize_text_rat B o).map castRect := by
  unfold recognize_text maximum_confidence rectangles recognize_text_rat
  rw [grown_cast B o H]
  exact survivor_loop_cast (settings o).mc (grown_rat B o).1 (grown_rat B o).2

end RT

namespace RT

theorem survivor_loop_eq_filter {K : Type} [LinearOrderedField K] (mc maxc : K) :
    ∀ l : List (Rectangle K),
      survivor_loop mc maxc l =
        (l.map (fun r => { r with confidence := r.confidence / maxc })).filter
          (fun r => decide (mc ≤ r.confidence)) := by
  intro l
  induction l with
  | nil => rfl
  | cons r t ih =>
    by_cases h : mc ≤ r.confidence / maxc <;>
      simp [survivor_loop, List.filter_cons, h, ih]

end RT

/-- Claim C4: the sample lattice is claimed to start at
`margin = max(ray_length_x, ray_length_y)` in both axes so that every ray sample
stays strictly inside the image.  Evaluating the code at a 19×13 buffer with the
default options: the grid starts its x axis at `ray_length_y = 6` although
`ray_length_x = 12`, the single generated point is (6, 6), and step 5 of its
west ray (direction index 6) nominally samples x = -4, outside the image — the
code's own comment claims no bounds checking is needed. -/
theorem C4_ray_samples_out_of_bounds :
    RT.xs uniformBuffer defaultOptions = [6] ∧
    RT.ys uniformBuffer defaultOptions = [6] ∧
    RT.ray_length_x (RT.settings defaultOptions) = 12 ∧
    RT.ray_length_y (RT.settings defaultOptions) = 6 ∧
    RT.sample_coord (RT.settings defaultOptions) 6 6 6 5 = (-4, 6) ∧
    ¬ (0 ≤ (-4 : ℤ)) := by
  decide

/-- Counterexample to claim C6: at a uniform 19×13 buffer with default options
the generated point (6, 6) has a segment-free downward ray, so its ray-summary
magnitude — the denominator of the `distance / magnitude` division — is zero
(the `|| 0` fallback then stores distance 0).  Division by zero is therefore not
structurally impossible. -/
theorem C6_counterexample_zero_magnitude_denominator :
    RT.xs uniformBuffer defaultOptions = [6] ∧
    RT.ys uniformBuffer defaultOptions = [6] ∧
    RT.ray_summary uniformBuffer defaultOptions 6 6 0 = ⟨0, 0⟩ := by
  decide

/-- Claim C6 (amended): the guarded denominators of the formulas are
structurally at least 1 — the classification normalizer `max(1, √·)`, the two
likelihood denominators (`1 + |L·L|` and `1 + (dot)²`), and every recorded
segment's length — but the ray-summary distance denominator (the magnitude) can
be zero, as the counterexample shows. -/
theorem C6_guarded_denominators :
    (∀ (B : ImageData) (o : RT.Options) (x y : ℕ),
      (1 : ℝ) ≤ RT.classification_distance B o x y) ∧
    (∀ d1 d2 : MD.DWindow,
      1 ≤ MD.variance_denominator d1 d2 ∧ 1 ≤ MD.average_denominator d1 d2) ∧
    (∀ (average : ℚ) (vals : List ℚ), ∀ sg ∈ RT.segs_of average vals, 1 ≤ sg.length) := by
  refine ⟨fun B o x y => RT.classification_distance_one_le B o x y, ?_, ?_⟩
  · intro d1 d2
    constructor
    · unfold MD.variance_denominator
      have := abs_nonneg (MD.luminosity d1.d_variance * MD.luminosity d2.d_variance)
      linarith
    · unfold MD.average_denominator MD.squared
      have := mul_self_nonneg (MD.dot d1.d_average d2.d_average)
      linarith
  · intro avg vals sg hsg
    exact (RT.segs_of_good avg vals sg hsg).1

/-- Witness for C6: the guarded denominators evaluated at concrete inputs,
including the segment ⟨1/12, 1, 1⟩ actually recorded by the segment loop on the
ray values [1/6, 0] with average 1/12. -/
theorem C6_guarded_denominators_witness :
    (1 : ℝ) ≤ RT.classification_distance uniformBuffer defaultOptions 6 6 ∧
    1 ≤ MD.variance_denominator ⟨[], []⟩ ⟨[], []⟩ ∧
    1 ≤ (RT.Seg.mk (1/12) 1 1).length :=
  ⟨C6_guarded_denominators.1 uniformBuffer defaultOptions 6 6,
   (C6_guarded_denominators.2.1 ⟨[], []⟩ ⟨[], []⟩).1,
   C6_guarded_denominators.2.2 (1/12) [1/6, 0] ⟨1/12, 1, 1⟩ (by decide)⟩

/-- Claim C7: a buffer filled with one solid RGBA color yields an empty
rectangle list for every valid configuration: every ray of every sample point
reads the same luminosity (even through the coerced wrapped offsets, which stay
4-aligned), so no segment is ever recorded, every classification is zero, and
the seed loop stops at its first point. -/
theorem C7_uniform_empty (B : ImageData) (o : RT.Options) (r g b a : ℕ)
    (hv : RT.ValidOptions o)
    (hB : B.data = (List.replicate (B.width * B.height) [r, g, b, a]).flatten) :
    RT.recognize_text B o = [] :=
  RT.result_nil_of_segs_empty B o hv.2.1 (fun x y j => RT.uniform_segments B o r g b a hB x y j)

/-- Witness for C7: the uniform 19×13 mid-gray buffer (whose default grid is
nonempty) with default options. -/
theorem C7_uniform_empty_witness : RT.recognize_text uniformBuffer defaultOptions = [] :=
  C7_uniform_empty uniformBuffer defaultOptions 128 128 128 255 (by decide) (by decide)

/-- Counterexample to claim C5: on a malformed input — positive dimensions
19×13 with an empty byte sequence, so the length 0 differs from 19·13·4 — the
detector does not fail with any InputError: it runs the normal path (every read
is `undefined`, poisoning every ray) and returns an ordinary empty list. -/
theorem C5_counterexample_no_error_on_malformed :
    RT.recognize_text emptyDataBuffer defaultOptions = [] :=
  RT.empty_data_result 19 13 defaultOptions (by decide)

/-- Claim C5 (amended): the source performs no input validation and no
`InputError` exists; a buffer whose byte length (0) differs from
`width * height * 4` flows through the ordinary code path and, for any valid
configuration, produces the ordinary value `[]` rather than an error. -/
theorem C5_malformed_returns_normally (w h : ℕ) (o : RT.Options) (_hw : 0 < w * h)
    (hv : RT.ValidOptions o) : RT.recognize_text ⟨w, h, []⟩ o = [] :=
  RT.empty_data_result w h o hv

/-- Witness for C5: the malformed 19×13 empty-data buffer with default options. -/
theorem C5_malformed_returns_normally_witness :
    RT.recognize_text ⟨19, 13, []⟩ defaultOptions = [] :=
  C5_malformed_returns_normally 19 13 defaultOptions (by decide) (by decide)

/-- Claim C8: the returned list is exactly the candidate rectangles, each with
its confidence divided by the maximum observed confidence, filtered to those
reaching `minimum_confidence`, in generation order. -/
theorem C8_survivors_filter (B : ImageData) (o : RT.Options) :
    RT.recognize_text B o =
      ((RT.rectangles B o).map
        (fun r => { r with confidence := r.confidence / RT.maximum_confidence B o })).filter
          (fun r => decide (((RT.settings o).mc : ℝ) ≤ r.confidence)) := by
  unfold RT.recognize_text
  exact RT.survivor_loop_eq_filter _ _ _

/-- Claim C10: the three-window likelihood of the literate sliding-window
variant equals the spec's formula
`(|dot(dv1, dv2)| / (1 + |L(dv1)·L(dv2)|)) * (|L(da1) - L(da2)| / (1 + dot(da1, da2)²))`
with the deltas taken as `w2 - w1` and `w3 - w2` on both aggregate vectors. -/
theorem C10_likelihood_matches_spec :
    ∀ w1 w2 w3 : MD.Window, MD.likelihood w1 w2 w3 = MD.spec_score w1 w2 w3 := by
  intro w1 w2 w3
  simp only [MD.likelihood, MD.spec_score, MD.variance_fraction, MD.average_fraction,
    MD.variance_denominator, MD.average_denominator, MD.d_window, MD.squared, pow_two]

/-- Counterexample to claim C9: the two strategies do not compute the claimed
common luminosity formula.  At the pixel (0, 0) of an all-white buffer the
ray-based detector computes 255/768 = 85/256 while the compiled sliding-window
draft computes 255 · 0.0722 = 18411/1000; the claimed value (weights divided by
the 8-bit channel range 255) would be 1.  All three disagree. -/
theorem C9_counterexample_luminosity_mismatch :
    RT.luminosity whiteBuffer 0 0 = some (85/256) ∧
    SW.luminosity (SW.pixel_vector whiteBuffer 0 0) = 18411/1000 ∧
    (85/256 : ℚ) ≠ 18411/1000 ∧ (85/256 : ℚ) ≠ 1 ∧ (18411/1000 : ℚ) ≠ 1 := by
  decide

/-- Claim C9 (amended): the ray-based strategy computes
`(R·0.2126 + G·0.7152 + B·0.0722) / 768` (each weight pre-divided by 768, not by
the channel range); the compiled sliding-window draft's fold overwrites its
accumulator, collapsing luminosity to `B·0.0722`; the literate variant computes
the undivided weighted sum. -/
theorem C9_luminosity_formulas :
    (∀ r g b : ℚ, r * RT.r_bias + g * RT.g_bias + b * RT.b_bias =
      (r * (2126/10000) + g * (7152/10000) + b * (722/10000)) / 768) ∧
    (∀ v0 v1 v2 : ℚ, SW.luminosity [v0, v1, v2] = v2 * (722/10000)) ∧
    (∀ v0 v1 v2 : ℚ, MD.luminosity [v0, v1, v2] =
      v0 * (2126/10000) + v1 * (7152/10000) + v2 * (722/10000)) := by
  refine ⟨?_, ?_, ?_⟩
  · intro r g b
    unfold RT.r_bias RT.g_bias RT.b_bias
    ring
  · intro v0 v1 v2
    show SW.dot [v0, v1, v2] SW.luminosity_vector = v2 * (722/10000)
    unfold SW.dot SW.luminosity_vector
    norm_num [List.range_succ]
  · intro v0 v1 v2
    show MD.dot [v0, v1, v2] MD.luminosity_vector =
      v0 * (2126/10000) + v1 * (7152/10000) + v2 * (722/10000)
    unfold MD.dot MD.luminosity_vector
    norm_num [List.range_succ]

/-- Counterexample to claim C3: at the 5×8 buffer with a single black pixel at
(2, 4) and options `{ray_steps: 2, ray_aspect: 1}`, the generated sample point
(2, 5) has a strong upward ray and nothing else, giving the raw top-edge score
`v_bias + v_total/2 = -1/24`; after normalization its top-edge classification
component is negative, refuting the claim that every component is non-negative
and lies in [0, 1]. -/
theorem C3_counterexample_top_edge_negative :
    RT.xs edgeBuffer edgeOptions = [2] ∧
    RT.ys edgeBuffer edgeOptions = [2, 5] ∧
    (RT.classified_point edgeBuffer edgeOptions 2 5).top_edge < 0 := by
  refine ⟨by decide, by decide, ?_⟩
  have hraw : (RT.raw_classification edgeBuffer edgeOptions 2 5).top_edge = -(1/24) := by
    decide
  show ((RT.raw_classification edgeBuffer edgeOptions 2 5).top_edge : ℝ) /
      RT.classification_distance edgeBuffer edgeOptions 2 5 < 0
  apply div_neg_of_neg_of_pos
  · rw [hraw]
    norm_num
  · exact RT.classification_distance_pos edgeBuffer edgeOptions 2 5

/-- Claim C3 (amended): after classification, for every generated sample point
of a validly configured call, the `interior`, `left_edge` and `right_edge`
components are non-negative, every component lies in [-1, 1], and the sum of
squares of the seven components is at most 1 (the raw vector is divided by
`max(1, √(Σ²))`); the top/bottom-edge and corner components may be negative, as
the counterexample shows. -/
theorem C3_classification_bounds (B : ImageData) (o : RT.Options) (x y : ℕ)
    (hv : RT.ValidOptions o) (_hx : x ∈ RT.xs B o) (_hy : y ∈ RT.ys B o) :
    (0 ≤ (RT.classified_point B o x y).interior ∧
     0 ≤ (RT.classified_point B o x y).left_edge ∧
     0 ≤ (RT.classified_point B o x y).right_edge) ∧
    (|(RT.classified_point B o x y).interior| ≤ 1 ∧
     |(RT.classified_point B o x y).left_edge| ≤ 1 ∧
     |(RT.classified_point B o x y).right_edge| ≤ 1 ∧
     |(RT.classified_point B o x y).top_edge| ≤ 1 ∧
     |(RT.classified_point B o x y).bottom_edge| ≤ 1 ∧
     |(RT.classified_point B o x y).nw_corner| ≤ 1 ∧
     |(RT.classified_point B o x y).se_corner| ≤ 1) ∧
    ((RT.classified_point B o x y).interior ^ 2 +
     (RT.classified_point B o x y).left_edge ^ 2 +
     (RT.classified_point B o x y).right_edge ^ 2 +
     (RT.classified_point B o x y).top_edge ^ 2 +
     (RT.classified_point B o x y).bottom_edge ^ 2 +
     (RT.classified_point B o x y).nw_corner ^ 2 +
     (RT.classified_point B o x y).se_corner ^ 2 ≤ 1) := by
  have hcd1 := RT.classification_distance_one_le B o x y
  have hcdpos := RT.classification_distance_pos B o x y
  have hcdsq := RT.classification_distance_sq B o x y
  have hcdne : RT.classification_distance B o x y ≠ 0 := ne_of_gt hcdpos
  have e1 : (RT.classified_point B o x y).interior =
      ((RT.raw_classification B o x y).interior : ℝ) / RT.classification_distance B o x y := rfl
  have e2 : (RT.classified_point B o x y).left_edge =
      ((RT.raw_classification B o x y).left_edge : ℝ) / RT.classification_distance B o x y := rfl
  have e3 : (RT.classified_point B o x y).right_edge =
      ((RT.raw_classification B o x y).right_edge : ℝ) / RT.classification_distance B o x y := rfl
  have e4 : (RT.classified_point B o x y).top_edge =
      ((RT.raw_classification B o x y).top_edge : ℝ) / RT.classification_distance B o x y := rfl
  have e5 : (RT.classified_point B o x y).bottom_edge =
      ((RT.raw_classification B o x y).bottom_edge : ℝ) / RT.classification_distance B o x y := rfl
  have e6 : (RT.classified_point B o x y).nw_corner =
      ((RT.raw_classification B o x y).nw_corner : ℝ) / RT.classification_distance B o x y := rfl
  have e7 : (RT.classified_point B o x y).se_corner =
      ((RT.raw_classification B o x y).se_corner : ℝ) / RT.classification_distance B o x y := rfl
  have hS : (RT.classified_point B o x y).interior ^ 2 +
      (RT.classified_point B o x y).left_edge ^ 2 +
      (RT.classified_point B o x y).right_edge ^ 2 +
      (RT.classified_point B o x y).top_edge ^ 2 +
      (RT.classified_point B o x y).bottom_edge ^ 2 +
      (RT.classified_point B o x y).nw_corner ^ 2 +
      (RT.classified_point B o x y).se_corner ^ 2 =
      ((RT.sq_sum (RT.raw_classification B o x y) : ℚ) : ℝ) /
        RT.classification_distance B o x y ^ 2 := by
    rw [e1, e2, e3, e4, e5, e6, e7]
    unfold RT.sq_sum
    push_cast
    field_simp
    ring
  have hSle : (RT.classified_point B o x y).interior ^ 2 +
      (RT.classified_point B o x y).left_edge ^ 2 +
      (RT.classified_point B o x y).right_edge ^ 2 +
      (RT.classified_point B o x y).top_edge ^ 2 +
      (RT.classified_point B o x y).bottom_edge ^ 2 +
      (RT.classified_point B o x y).nw_corner ^ 2 +
      (RT.classified_point B o x y).se_corner ^ 2 ≤ 1 := by
    rw [hS, div_le_one (by positivity)]
    rw [hcdsq]
    exact le_max_right _ _
  refine ⟨⟨?_, ?_, ?_⟩, ?_, hSle⟩
  · rw [e1]
    exact div_nonneg (by exact_mod_cast RT.raw_interior_nonneg B o x y hv.1.le) hcdpos.le
  · rw [e2]
    exact div_nonneg (by exact_mod_cast RT.raw_left_edge_nonneg B o x y) hcdpos.le
  · rw [e3]
    exact div_nonneg (by exact_mod_cast RT.raw_right_edge_nonneg B o x y) hcdpos.le
  · have habs : ∀ t : ℝ, t ^ 2 ≤ 1 → |t| ≤ 1 := fun t ht => (sq_le_one_iff_abs_le_one t).mp ht
    refine ⟨?_, ?_, ?_, ?_, ?_, ?_, ?_⟩ <;>
      apply habs <;>
      nlinarith [sq_nonneg (RT.classified_point B o x y).interior,
        sq_nonneg (RT.classified_point B o x y).left_edge,
        sq_nonneg (RT.classified_point B o x y).right_edge,
        sq_nonneg (RT.classified_point B o x y).top_edge,
        sq_nonneg (RT.classified_point B o x y).bottom_edge,
        sq_nonneg (RT.classified_point B o x y).nw_corner,
        sq_nonneg (RT.classified_point B o x y).se_corner]

/-- Witness for C3 (amended): the bounds at the generated point (2, 2) of the
edge buffer. -/
theorem C3_classification_bounds_witness :
    (0 ≤ (RT.classified_point edgeBuffer edgeOptions 2 2).interior ∧
     0 ≤ (RT.classified_point edgeBuffer edgeOptions 2 2).left_edge ∧
     0 ≤ (RT.classified_point edgeBuffer edgeOptions 2 2).right_edge) ∧
    (|(RT.classified_point edgeBuffer edgeOptions 2 2).interior| ≤ 1 ∧
     |(RT.classified_point edgeBuffer edgeOptions 2 2).left_edge| ≤ 1 ∧
     |(RT.classified_point edgeBuffer edgeOptions 2 2).right_edge| ≤ 1 ∧
     |(RT.classified_point edgeBuffer edgeOptions 2 2).top_edge| ≤ 1 ∧
     |(RT.classified_point edgeBuffer edgeOptions 2 2).bottom_edge| ≤ 1 ∧
     |(RT.classified_point edgeBuffer edgeOptions 2 2).nw_corner| ≤ 1 ∧
     |(RT.classified_point edgeBuffer edgeOptions 2 2).se_corner| ≤ 1) ∧
    ((RT.classified_point edgeBuffer edgeOptions 2 2).interior ^ 2 +
     (RT.classified_point edgeBuffer edgeOptions 2 2).left_edge ^ 2 +
     (RT.classified_point edgeBuffer edgeOptions 2 2).right_edge ^ 2 +
     (RT.classified_point edgeBuffer edgeOptions 2 2).top_edge ^ 2 +
     (RT.classified_point edgeBuffer edgeOptions 2 2).bottom_edge ^ 2 +
     (RT.classified_point edgeBuffer edgeOptions 2 2).nw_corner ^ 2 +
     (RT.classified_point edgeBuffer edgeOptions 2 2).se_corner ^ 2 ≤ 1) :=
  C3_classification_bounds edgeBuffer edgeOptions 2 2 (by decide) (by decide) (by decide)

/-- Claim C1, evaluated at a failing input (code bug): at the 11×11 buffer with
two black pixels bracketing the seed (5, 5) horizontally, the single surviving
seed emits a candidate whose confidence is the sum of its four axis-ray
magnitudes, 1/6, while the spec's border/interior integral divided by
`area * height` — which the code computes but stores only in
`maximum_confidence` — is 1/1296.  The emitted value is not the claimed one. -/
theorem C1_emitted_confidence_diverges :
    (RT.rectangles busyBuffer busyOptions).map (fun r => r.confidence) = [(1 : ℝ)/6] ∧
    RT.maximum_confidence busyBuffer busyOptions = (1 : ℝ)/1296 ∧
    ((1 : ℝ)/6) ≠ (1 : ℝ)/1296 := by
  have hg := RT.grown_cast busyBuffer busyOptions (by decide)
  refine ⟨?_, ?_, by norm_num⟩
  · unfold RT.rectangles RT.grown
    unfold RT.grown at hg
    rw [hg]
    have h2 : (RT.grown_rat busyBuffer busyOptions).2 = [⟨5, 5, 3, 3, (1/6 : ℚ)⟩] := by
      decide
    rw [h2]
    simp [RT.castRect]
  · unfold RT.maximum_confidence RT.grown
    unfold RT.grown at hg
    rw [hg]
    have h1 : (RT.grown_rat busyBuffer busyOptions).1 = (1/1296 : ℚ) := by
      decide
    rw [h1]
    norm_num

/-- Claim C2, evaluated at a failing input (code bug): at the same 11×11 buffer
the returned list contains a rectangle whose normalized confidence is
(1/6) / (1/1296) = 216, far above 1 — the emitted magnitudes are divided by the
maximum of the differently-scaled computed confidences, so the output is not
confined to [0, 1]. -/
theorem C2_confidence_above_one :
    RT.recognize_text busyBuffer busyOptions = [⟨5, 5, 3, 3, (216 : ℝ)⟩] ∧
    (1 : ℝ) < 216 := by
  refine ⟨?_, by norm_num⟩
  rw [RT.recognize_text_eq_rat busyBuffer busyOptions (by decide)]
  have h : RT.recognize_text_rat busyBuffer busyOptions = [⟨5, 5, 3, 3, (216 : ℚ)⟩] := by
    decide
  rw [h]
  simp [RT.castRect]
